import Mathlib

/-!
Verification of the lexer/parser front end of the Hydrogen language
(files src/hash/lexer.rs, src/hash/tokens.rs, src/hash/ast.rs,
src/hash/parser.rs), as a shallow embedding in Lean 4.

The lexer is embedded as a pure state-passing function over an explicit
cursor state (remaining characters plus a column/row position); the parser
as a fuel-indexed family of mutually recursive functions mirroring the
recursive-descent procedures one-to-one.  Rust `panic!` sites (`todo!()`,
`.unwrap()`, out-of-bounds `Vec` indexing) are modelled by an explicit
`panicked` outcome; exhaustion of the fuel is a separate `nofuel` outcome,
so genuine non-termination of the Rust loops is observable as `nofuel` for
every fuel value.
-/

set_option maxRecDepth 10000

namespace Hydrogen

/-- Character class: ASCII restriction of Rust `char::is_whitespace`
(Unicode `White_Space`; on ASCII: space, \t, \n, vertical tab, form feed, \r). -/
def isWhitespaceChar (c : Char) : Bool :=
  c.toNat = 32 || c.toNat = 9 || c.toNat = 10 || c.toNat = 11 || c.toNat = 12 || c.toNat = 13

/-- Character class: ASCII restriction of Rust `char::is_alphabetic`. -/
def isAlphabeticChar (c : Char) : Bool :=
  (65 ≤ c.toNat && c.toNat ≤ 90) || (97 ≤ c.toNat && c.toNat ≤ 122)

/-- Character class: ASCII restriction of Rust `char::is_numeric` (digits 0-9). -/
def isNumericChar (c : Char) : Bool :=
  48 ≤ c.toNat && c.toNat ≤ 57

/-- Character class: ASCII restriction of Rust `char::is_alphanumeric`. -/
def isAlphanumericChar (c : Char) : Bool :=
  isAlphabeticChar c || isNumericChar c

/-- `Position` from tokens.rs: 1-based column/row of a token. -/
structure Position where
  col : Nat
  row : Nat
deriving DecidableEq, Repr

/-- `Token` from tokens.rs.  The Rust variant `Type` is named `Typ` here
because `Type` is a reserved word in Lean. -/
inductive Token where
  | LeftParenthesis : Position → Token
  | RightParenthesis : Position → Token
  | LeftBrace : Position → Token
  | RightBrace : Position → Token
  | LeftBracket : Position → Token
  | RightBracket : Position → Token
  | Plus : Position → Token
  | PlusEqual : Position → Token
  | Minus : Position → Token
  | MinusEqual : Position → Token
  | Asterisk : Position → Token
  | AsteriskEqual : Position → Token
  | Slash : Position → Token
  | SlashEqual : Position → Token
  | Equal : Position → Token
  | Equals : Position → Token
  | NotEqual : Position → Token
  | GreaterThan : Position → Token
  | GreaterThanOrEqual : Position → Token
  | LessThan : Position → Token
  | LessThanOrEqual : Position → Token
  | Ampersand : Position → Token
  | And : Position → Token
  | Or : Position → Token
  | DollarSign : Position → Token
  | Hash : Position → Token
  | ExplinationMark : Position → Token
  | QuestionMark : Position → Token
  | Colon : Position → Token
  | Dot : Position → Token
  | Comma : Position → Token
  | At : Position → Token
  | Percent : Position → Token
  | PercentEqual : Position → Token
  | Caret : Position → Token
  | CaretEqual : Position → Token
  | In : Position → Token
  | As : Position → Token
  | Identifier : Position → String → Token
  | Typ : Position → String → Token
  | Keyword : Position → String → Token
  | String : Position → String → Token
  | Boolean : Position → String → Token
  | Number : Position → String → Token
  | Unknown : Position → String → Token
  | Eof : Position → Token
deriving DecidableEq, Repr

/-- The `Display` impl for `Token` in tokens.rs, as a partial text function:
`none` models the `todo!()` arms for `In` and `As`, which panic when hit. -/
def tokenDisplay : Token → Option String
  | .LeftParenthesis _ => some ("(")
  | .RightParenthesis _ => some (")")
  | .LeftBrace _ => some ("\x7b")
  | .RightBrace _ => some ("\x7d")
  | .LeftBracket _ => some ("[")
  | .RightBracket _ => some ("]")
  | .Plus _ => some ("+")
  | .PlusEqual _ => some ("+=")
  | .Minus _ => some ("-")
  | .MinusEqual _ => some ("-=")
  | .Asterisk _ => some ("*")
  | .AsteriskEqual _ => some ("*=")
  | .Slash _ => some ("/")
  | .SlashEqual _ => some ("/=")
  | .Equal _ => some ("=")
  | .Equals _ => some ("==")
  | .NotEqual _ => some ("!=")
  | .GreaterThan _ => some (">")
  | .GreaterThanOrEqual _ => some (">=")
  | .LessThan _ => some ("<")
  | .LessThanOrEqual _ => some ("<=")
  | .Ampersand _ => some ("&")
  | .And _ => some ("and")
  | .Or _ => some ("or")
  | .DollarSign _ => some ("$")
  | .Hash _ => some ("#")
  | .ExplinationMark _ => some ("!")
  | .QuestionMark _ => some ("?")
  | .Colon _ => some (":")
  | .Dot _ => some (".")
  | .Comma _ => some ("Comma")
  | .At _ => some ("@")
  | .Percent _ => some ("%")
  | .PercentEqual _ => some ("%=")
  | .Caret _ => some ("^")
  | .CaretEqual _ => some ("^=")
  | .In _ => none
  | .As _ => none
  | .Identifier _ name => some ("Identifier(" ++ name ++ ")")
  | .Typ _ ty => some ("Type(" ++ ty ++ ")")
  | .Keyword _ kw => some ("Keyword(" ++ kw ++ ")")
  | .String _ s => some ("String(\"" ++ s ++ "\")")
  | .Boolean _ b => some ("Boolean(" ++ b ++ ")")
  | .Number _ n => some ("Number(" ++ n ++ ")")
  | .Unknown _ u => some ("Unknown(" ++ u ++ ")")
  | .Eof _ => some ("EOF")

/-- The `Lexer` struct from lexer.rs: the not-yet-consumed characters of the
source (the `Peekable<Chars>` iterator) and the current position. -/
structure Lexer where
  source : List Char
  pos : Position
deriving DecidableEq, Repr

/-- `Lexer::next_char`: pops one character (or `char::default()` at end of
input), returns the position it was read at, and advances the position. -/
def nextChar (l : Lexer) : Position × Char × Lexer :=
  let current := l.source.headD (Char.ofNat 0)
  let position := l.pos
  let pos2 : Position :=
    if current = '\n' then { col := 1, row := l.pos.row + 1 }
    else { col := l.pos.col + 1, row := l.pos.row }
  (position, current, { source := l.source.tail, pos := pos2 })

/-- One consuming advance of the lexer cursor (the state part of `next_char`). -/
def advance1 (l : Lexer) : Lexer := (nextChar l).2.2

/-- `Lexer::collect`, structurally recursive over the character list:
collects the maximal prefix satisfying `cond`, advancing the cursor
through `next_char` for each collected character. -/
def collectAux (cond : Char → Bool) : List Char → Position → List Char × Lexer
  | [], pos => ([], { source := [], pos := pos })
  | c :: rest, pos =>
    if cond c then
      let r := collectAux cond rest (advance1 { source := c :: rest, pos := pos }).pos
      (c :: r.1, r.2)
    else ([], { source := c :: rest, pos := pos })

/-- `Lexer::collect` on a lexer state. -/
def collect (cond : Char → Bool) (l : Lexer) : List Char × Lexer :=
  collectAux cond l.source l.pos

/-- The character-dropping loop of `Lexer::consume_whitespace` (stops at the
first non-whitespace character). -/
def skipWhitespaceAux : List Char → Position → Lexer
  | [], pos => { source := [], pos := pos }
  | c :: rest, pos =>
    if isWhitespaceChar c then
      skipWhitespaceAux rest (advance1 { source := c :: rest, pos := pos }).pos
    else { source := c :: rest, pos := pos }

/-- The character-dropping loop of `Lexer::consume_comment` (stops at the
newline, which is left unconsumed, or at end of input). -/
def skipLineCommentAux : List Char → Position → Lexer
  | [], pos => { source := [], pos := pos }
  | c :: rest, pos =>
    if c = '\n' then { source := c :: rest, pos := pos }
    else skipLineCommentAux rest (advance1 { source := c :: rest, pos := pos }).pos

/-- The character-dropping loop of `Lexer::consume_multiline_comment`:
on `*` it consumes the star, and if `/` follows it consumes it and stops;
otherwise the unconditional trailing `next_char` of the Rust loop consumes
one further character (even at end of input, where it only bumps the column). -/
def skipMultilineAux : List Char → Position → Lexer
  | [], pos => { source := [], pos := pos }
  | c :: rest, pos =>
    if c = '*' then
      match rest with
      | '/' :: _ => advance1 (advance1 { source := c :: rest, pos := pos })
      | [] => advance1 (advance1 { source := c :: rest, pos := pos })
      | _ :: rest2 =>
        skipMultilineAux rest2 (advance1 (advance1 { source := c :: rest, pos := pos })).pos
    else skipMultilineAux rest (advance1 { source := c :: rest, pos := pos }).pos

/-- `Lexer::collect_id`: maximal munch over alphanumerics, then keyword /
type / boolean classification; the token position rewinds the column by the
lexeme length. -/
def collect_id (l : Lexer) : Token × Lexer :=
  let r := collect isAlphanumericChar l
  let l1 := r.2
  let current : Position := { col := l1.pos.col - r.1.length, row := l1.pos.row }
  let b : String := String.mk r.1
  if b = "if" then (Token.Keyword current b, l1)
  else if b = "else" then (Token.Keyword current b, l1)
  else if b = "while" then (Token.Keyword current b, l1)
  else if b = "break" then (Token.Keyword current b, l1)
  else if b = "continue" then (Token.Keyword current b, l1)
  else if b = "in" then (Token.In current, l1)
  else if b = "as" then (Token.As current, l1)
  else if b = "num" then (Token.Typ current b, l1)
  else if b = "str" then (Token.Typ current b, l1)
  else if b = "bool" then (Token.Typ current b, l1)
  else if b = "true" then (Token.Boolean current b, l1)
  else if b = "false" then (Token.Boolean current b, l1)
  else (Token.Identifier current b, l1)

/-- `Lexer::collect_number`: maximal munch over numeric characters only. -/
def collect_number (l : Lexer) : Token × Lexer :=
  let r := collect isNumericChar l
  let l1 := r.2
  let current : Position := { col := l1.pos.col - r.1.length, row := l1.pos.row }
  (Token.Number current (String.mk r.1), l1)

/-- `Lexer::collect_string`: consumes the opening quote, munches to the next
quote; a missing closing quote yields `Unknown`. -/
def collect_string (l : Lexer) : Token × Lexer :=
  let r0 := nextChar l
  let current := r0.1
  let l1 := r0.2.2
  let r := collect (fun c => !(c == '"')) l1
  let l2 := r.2
  match l2.source with
  | c :: _ =>
    if c = '"' then (Token.String current (String.mk r.1), advance1 l2)
    else (Token.Unknown current (String.mk r.1), l2)
  | [] => (Token.Unknown l2.pos (String.mk r.1), l2)

/-- `Lexer::lex`, fuel-indexed.  The only recursive paths (whitespace and the
two comment forms) consume at least one character before recursing, so with
fuel exceeding the number of remaining characters the 0-fuel fallback (which
mirrors the `Eof` answer) is unreachable; `lex` below instantiates the fuel
accordingly, making this a total description of the always-terminating Rust
function. -/
def lexF : Nat → Lexer → Token × Lexer
  | 0, l => (Token.Eof l.pos, l)
  | fuel+1, l =>
    match l.source with
    | [] => (Token.Eof l.pos, l)
    | c :: _ =>
      if isWhitespaceChar c then lexF fuel (skipWhitespaceAux l.source l.pos)
      else if isAlphabeticChar c then collect_id l
      else if c = '"' then collect_string l
      else if isNumericChar c then collect_number l
      else
        let r := nextChar l
        let position := r.1
        let current := r.2.1
        let l1 := r.2.2
        match current with
        | '(' => (Token.LeftParenthesis position, l1)
        | ')' => (Token.RightParenthesis position, l1)
        | '\x7b' => (Token.LeftBrace position, l1)
        | '\x7d' => (Token.RightBrace position, l1)
        | '[' => (Token.LeftBracket position, l1)
        | ']' => (Token.RightBracket position, l1)
        | ',' => (Token.Comma position, l1)
        | '?' => (Token.QuestionMark position, l1)
        | '$' => (Token.DollarSign position, l1)
        | '#' => (Token.Hash position, l1)
        | ':' => (Token.Colon position, l1)
        | '.' => (Token.Dot position, l1)
        | '@' => (Token.At position, l1)
        | '^' =>
          match l1.source with
          | c2 :: _ =>
            if c2 = '=' then (Token.CaretEqual position, advance1 l1)
            else (Token.Caret position, l1)
          | [] => (Token.Caret position, l1)
        | '%' =>
          match l1.source with
          | c2 :: _ =>
            if c2 = '=' then (Token.PercentEqual position, advance1 l1)
            else (Token.Percent position, l1)
          | [] => (Token.Percent position, l1)
        | '+' =>
          match l1.source with
          | c2 :: _ =>
            if c2 = '=' then (Token.PlusEqual position, advance1 l1)
            else (Token.Plus position, l1)
          | [] => (Token.Plus position, l1)
        | '-' =>
          match l1.source with
          | c2 :: _ =>
            if c2 = '=' then (Token.MinusEqual position, advance1 l1)
            else (Token.Minus position, l1)
          | [] => (Token.Minus position, l1)
        | '*' =>
          match l1.source with
          | c2 :: _ =>
            if c2 = '=' then (Token.AsteriskEqual position, advance1 l1)
            else (Token.Asterisk position, l1)
          | [] => (Token.Asterisk position, l1)
        | '/' =>
          match l1.source with
          | c2 :: _ =>
            if c2 = '/' then lexF fuel (skipLineCommentAux l1.source l1.pos)
            else if c2 = '*' then lexF fuel (skipMultilineAux l1.source l1.pos)
            else if c2 = '=' then (Token.SlashEqual position, advance1 l1)
            else (Token.Slash position, l1)
          | [] => (Token.Slash position, l1)
        | '=' =>
          match l1.source with
          | c2 :: _ =>
            if c2 = '=' then (Token.Equals position, advance1 l1)
            else (Token.Equal position, l1)
          | [] => (Token.Equal position, l1)
        | '!' =>
          match l1.source with
          | c2 :: _ =>
            if c2 = '=' then (Token.NotEqual position, advance1 l1)
            else (Token.ExplinationMark position, l1)
          | [] => (Token.ExplinationMark position, l1)
        | '>' =>
          match l1.source with
          | c2 :: _ =>
            if c2 = '=' then (Token.GreaterThanOrEqual position, advance1 l1)
            else (Token.GreaterThan position, l1)
          | [] => (Token.GreaterThan position, l1)
        | '<' =>
          match l1.source with
          | c2 :: _ =>
            if c2 = '=' then (Token.LessThanOrEqual position, advance1 l1)
            else (Token.LessThan position, l1)
          | [] => (Token.LessThan position, l1)
        | '&' =>
          match l1.source with
          | c2 :: _ =>
            if c2 = '&' then (Token.And position, advance1 l1)
            else (Token.Ampersand position, l1)
          | [] => (Token.Ampersand position, l1)
        | '|' =>
          match l1.source with
          | c2 :: _ =>
            if c2 = '|' then (Token.Or position, advance1 l1)
            else (Token.Unknown position (String.mk [r.2.1]), l1)
          | [] => (Token.Unknown position (String.mk [r.2.1]), l1)
        | other => (Token.Unknown position (String.mk [other]), l1)

/-- `Lexer::lex`: lexes and returns the next token together with the advanced
lexer state. -/
def lex (l : Lexer) : Token × Lexer := lexF (l.source.length + 1) l

/-- The duplicated cursor state built inside `Lexer::peek`
(`Lexer { source: self.source.clone(), position: self.position.clone() }`). -/
def clone (l : Lexer) : Lexer := { source := l.source, pos := l.pos }

/-- `Lexer::peek`: runs `lex` on a disposable duplicate of the cursor state
and returns only the token. -/
def peek (l : Lexer) : Token := (lex (clone l)).1

/-- The fresh lexer built by `Lexer::new`. -/
def lexerInit (src : String) : Lexer :=
  { source := src.toList, pos := { col := 1, row := 1 } }

/-- Repeated `lex` until `Eof`, to talk about the full token stream of an
input (the loop of the lexer's own unit test). -/
def tokensF : Nat → Lexer → List Token
  | 0, _ => []
  | fuel+1, l =>
    match lex l with
    | (Token.Eof _, _) => []
    | (t, l1) => t :: tokensF fuel l1

/-- `ASTNode` from ast.rs, with the variants actually produced by parser.rs
(`VariableDeclaration`, `If`, `While`, `Array` and the four sentinel variants
used by the snapshot of the parser under verification; boxes collapse in the
embedding).  The Rust variant `Type` is named `Typ` because `Type` is a
reserved word in Lean. -/
inductive ASTNode where
  | StringType : ASTNode
  | StringLiteral : String → ASTNode
  | BooleanType : ASTNode
  | BooleanLiteral : Bool → ASTNode
  | NumberType : ASTNode
  | NumberLiteral : String → ASTNode
  | Identifier : String → ASTNode
  | Operator : String → ASTNode
  | VariableDeclaration : ASTNode → ASTNode → ASTNode
  | VariableDefinition : ASTNode → ASTNode → ASTNode → ASTNode
  | Typ : Option ASTNode → ASTNode
  | UnaryExpression : ASTNode → ASTNode → ASTNode
  | BinaryExpression : ASTNode → ASTNode → ASTNode → ASTNode
  | FunctionDefinition : ASTNode → ASTNode → ASTNode → ASTNode → ASTNode
  | Parameters : List ASTNode → ASTNode
  | Return : Option ASTNode → ASTNode
  | Block : List ASTNode → ASTNode
  | FunctionCall : ASTNode → ASTNode → ASTNode
  | Arguments : List ASTNode → ASTNode
  | If : ASTNode → ASTNode → ASTNode → ASTNode
  | While : ASTNode → ASTNode → ASTNode
  | Array : List ASTNode → ASTNode
  | ParenDelimiter : ASTNode
  | BraceDelimiter : ASTNode
  | BracketDelimiter : ASTNode
  | Separator : ASTNode
deriving Repr

/-- `ASTError` from ast.rs. -/
inductive ASTError where
  | UnknownToken : Token → ASTError
  | UnexpectedToken : Token → ASTError
  | EarlyEOF : Token → ASTError
  | Errors : List ASTError → ASTError
deriving Repr

/-- True exactly on the four parser-internal sentinel variants. -/
def isSentinel : ASTNode → Bool
  | .ParenDelimiter => true
  | .BraceDelimiter => true
  | .BracketDelimiter => true
  | .Separator => true
  | _ => false

/-- The two node shapes `Parser::parse_set`'s loop refuses to push. -/
def isSetStop : ASTNode → Bool
  | .ParenDelimiter => true
  | .Separator => true
  | _ => false

/-- The node shape `Parser::parse_scope`'s loop refuses to push. -/
def isScopeStop : ASTNode → Bool
  | .BraceDelimiter => true
  | _ => false

/-- The two node shapes `Parser::parse_array`'s loop refuses to push. -/
def isArrayStop : ASTNode → Bool
  | .BracketDelimiter => true
  | .Separator => true
  | _ => false

/-- Result of one parser procedure returning `Result<T, Error>` in Rust:
a normal return (the `Except` carries `Ok`/`Err` as data, exactly like the
Rust `Result`) with the lexer state it left behind, or a Rust panic, or
exhaustion of the embedding's fuel. -/
inductive PRes (α : Type) where
  | res : Except ASTError α → Lexer → PRes α
  | panicked : PRes α
  | nofuel : PRes α
deriving Repr

/-- Result of one of the collecting loops (`parse_set`/`parse_scope`/
`parse_array` bodies and the top-level loop of `parse`): the collected
elements, the accumulated errors and the final lexer state. -/
inductive LoopRes where
  | done : List ASTNode → List ASTError → Lexer → LoopRes
  | panicked : LoopRes
  | nofuel : LoopRes
deriving Repr

/-- Result of `match_unary_operator` / `match_binary_operator`
(`Option<String>` in Rust, plus the panic the `Display` impl can raise). -/
inductive OpMatch where
  | noOp : OpMatch
  | op : String → Lexer → OpMatch
  | panicked : OpMatch
deriving Repr

/-- `Parser::match_unary_operator`: consumes and stringifies the peeked token
when it is `!`, `+` or `-`. -/
def match_unary_operator (s : Lexer) : OpMatch :=
  match peek s with
  | .ExplinationMark _ | .Plus _ | .Minus _ =>
    match lex s with
    | (t, s1) =>
      match tokenDisplay t with
      | some str => .op str s1
      | none => .panicked
  | _ => .noOp

/-- `Parser::match_binary_operator`: consumes and stringifies the peeked token
when it is one of the seventeen binary-operator tokens (`In`/`As` panic in
`Display::fmt`). -/
def match_binary_operator (s : Lexer) : OpMatch :=
  match peek s with
  | .At _ | .In _ | .As _ | .And _ | .Or _ | .Equals _ | .NotEqual _
  | .GreaterThan _ | .GreaterThanOrEqual _ | .LessThan _ | .LessThanOrEqual _
  | .Caret _ | .Percent _ | .Asterisk _ | .Slash _ | .Plus _ | .Minus _ =>
    match lex s with
    | (t, s1) =>
      match tokenDisplay t with
      | some str => .op str s1
      | none => .panicked
  | _ => .noOp

mutual

/-- `Parser::parse_node`: statement/expression dispatch on the next consumed
token.  The `todo!()` in the unary-operator branch and the `.unwrap()` calls
and `Vec` indexing in the `Identifier`/`Keyword` branches are modelled as
`panicked`. -/
def parse_node : Nat → Lexer → PRes ASTNode
  | 0, _ => .nofuel
  | fuel+1, s =>
    match lex s with
    | (t, s1) =>
      match t with
      | .LeftParenthesis _ => parse_set fuel s1
      | .RightParenthesis _ => .res (.ok .ParenDelimiter) s1
      | .LeftBrace _ => parse_scope fuel s1
      | .RightBrace _ => .res (.ok .BraceDelimiter) s1
      | .LeftBracket _ => parse_array fuel s1
      | .RightBracket _ => .res (.ok .BracketDelimiter) s1
      | .Comma _ => .res (.ok .Separator) s1
      | .String _ string => .res (.ok (.StringLiteral string)) s1
      | .Number _ number => .res (.ok (.NumberLiteral number)) s1
      | .Boolean _ boolean =>
        .res (.ok (.BooleanLiteral (if boolean = "true" then true else false))) s1
      | .Typ p ty =>
        if ty = "num" then .res (.ok .NumberType) s1
        else if ty = "str" then .res (.ok .StringType) s1
        else if ty = "bool" then .res (.ok .BooleanType) s1
        else .res (.error (.UnknownToken (.Typ p ty))) s1
      | .Asterisk _ | .Slash _ | .Plus _ | .Minus _ =>
        match tokenDisplay t with
        | some opStr =>
          match parse_expression fuel s1 with
          | .res (.ok expression) s2 =>
            .res (.ok (.UnaryExpression (.Operator opStr) expression)) s2
          | .res (.error _) _ => .panicked
          | .panicked => .panicked
          | .nofuel => .nofuel
        | none => .panicked
      | .Identifier _ id =>
        match peek s1 with
        | .LeftParenthesis _ =>
          match parse_function fuel s1 with
          | .res (.ok value) s2 =>
            match value with
            | [v] => .res (.ok (.FunctionCall (.Identifier id) v)) s2
            | v0 :: v1 :: v2 :: _ =>
              .res (.ok (.FunctionDefinition (.Identifier id) v0 v1 v2)) s2
            | _ => .panicked
          | .res (.error _) s2 => .res (.error (.UnexpectedToken t)) s2
          | .panicked => .panicked
          | .nofuel => .nofuel
        | .Colon _ =>
          match parse_variable fuel s1 with
          | .res (.ok value) s2 =>
            match value with
            | [v] => .res (.ok (.VariableDeclaration (.Identifier id) v)) s2
            | v0 :: v1 :: _ => .res (.ok (.VariableDefinition (.Identifier id) v0 v1)) s2
            | _ => .panicked
          | .res (.error _) s2 => .res (.error (.UnexpectedToken t)) s2
          | .panicked => .panicked
          | .nofuel => .nofuel
        | .PlusEqual _ | .MinusEqual _ | .AsteriskEqual _ | .SlashEqual _
        | .PercentEqual _ | .CaretEqual _ | .Equal _ =>
          match parse_variable fuel s1 with
          | .res (.ok value) s2 =>
            match value with
            | [v0, v1] => .res (.ok (.VariableDefinition (.Identifier id) v0 v1)) s2
            | v0 :: v1 :: v2 :: _ =>
              .res (.ok (.VariableDefinition (.Identifier id) v0
                (.BinaryExpression (.Identifier id) v1 v2))) s2
            | _ => .panicked
          | .res (.error _) s2 => .res (.error (.UnexpectedToken t)) s2
          | .panicked => .panicked
          | .nofuel => .nofuel
        | _ => .res (.ok (.Identifier id)) s1
      | .Keyword p word =>
        if word = "if" then
          match parse_expression fuel s1 with
          | .res (.ok expression) s2 =>
            match parse_scope fuel s2 with
            | .res (.ok body) s3 =>
              match peek s3 with
              | .Keyword _ word2 =>
                if word2 = "else" then
                  match parse_node fuel s3 with
                  | .res (.ok n) s4 => .res (.ok (.If expression body n)) s4
                  | .res (.error _) _ => .panicked
                  | .panicked => .panicked
                  | .nofuel => .nofuel
                else
                  match lex s3 with
                  | (t2, s4) => .res (.error (.UnknownToken t2)) s4
              | _ =>
                match parse_node fuel s3 with
                | .res (.ok n) s4 => .res (.ok (.If expression body n)) s4
                | .res (.error _) _ => .panicked
                | .panicked => .panicked
                | .nofuel => .nofuel
            | .res (.error e) s3 => .res (.error e) s3
            | .panicked => .panicked
            | .nofuel => .nofuel
          | .res (.error e) s2 => .res (.error e) s2
          | .panicked => .panicked
          | .nofuel => .nofuel
        else if word = "while" then
          match parse_expression fuel s1 with
          | .res (.ok expression) s2 =>
            match parse_scope fuel s2 with
            | .res (.ok body) s3 => .res (.ok (.While expression body)) s3
            | .res (.error e) s3 => .res (.error e) s3
            | .panicked => .panicked
            | .nofuel => .nofuel
          | .res (.error e) s2 => .res (.error e) s2
          | .panicked => .panicked
          | .nofuel => .nofuel
        else .res (.error (.UnexpectedToken (.Keyword p word))) s1
      | _ => .res (.error (.UnexpectedToken t)) s1

/-- `Parser::parse_function`: a grouped list, then dispatch on what follows:
`{` means body (no return type), `:` means return type then body, anything
else means the group alone (an argument list). -/
def parse_function : Nat → Lexer → PRes (List ASTNode)
  | 0, _ => .nofuel
  | fuel+1, s =>
    match parse_set fuel s with
    | .res (.ok param) s1 =>
      match peek s1 with
      | .LeftBrace _ =>
        match parse_scope fuel s1 with
        | .res (.ok body) s2 => .res (.ok [param, .Return none, body]) s2
        | .res (.error e) s2 => .res (.error e) s2
        | .panicked => .panicked
        | .nofuel => .nofuel
      | .Colon _ =>
        match parse_return fuel s1 with
        | .res (.ok ret) s2 =>
          match peek s2 with
          | .LeftBrace _ =>
            match parse_scope fuel s2 with
            | .res (.ok body) s3 => .res (.ok [param, .Return (some ret), body]) s3
            | .res (.error e) s3 => .res (.error e) s3
            | .panicked => .panicked
            | .nofuel => .nofuel
          | _ =>
            match lex s2 with
            | (t2, s3) => .res (.error (.UnexpectedToken t2)) s3
        | .res (.error e) s2 => .res (.error e) s2
        | .panicked => .panicked
        | .nofuel => .nofuel
      | _ => .res (.ok [param]) s1
    | .res (.error e) s1 => .res (.error e) s1
    | .panicked => .panicked
    | .nofuel => .nofuel

/-- `Parser::parse_return`: skips the `:` and parses one node. -/
def parse_return : Nat → Lexer → PRes ASTNode
  | 0, _ => .nofuel
  | fuel+1, s =>
    match lex s with
    | (_, s1) => parse_node fuel s1

/-- The collecting loop of `Parser::parse_set` (elements between `(` and `)`;
a comma's `Separator` is skipped, a `ParenDelimiter` ends the group and eats
one further token, errors accumulate). -/
def setLoop : Nat → Lexer → List ASTNode → List ASTError → LoopRes
  | 0, _, _, _ => .nofuel
  | fuel+1, s, parameters, errors =>
    match peek s with
    | .RightParenthesis _ => .done parameters errors (lex s).2
    | _ =>
      match parse_node fuel s with
      | .res (.ok parameter) s1 =>
        match parameter with
        | .ParenDelimiter => .done parameters errors (lex s1).2
        | .Separator => setLoop fuel s1 parameters errors
        | _ => setLoop fuel s1 (parameters ++ [parameter]) errors
      | .res (.error e) s1 => setLoop fuel s1 parameters (errors ++ [e])
      | .panicked => .panicked
      | .nofuel => .nofuel

/-- `Parser::parse_set`: consumes one token, runs the collecting loop, then
classifies the group as `Parameters` when `{` or `:` follows and `Arguments`
otherwise; any accumulated error makes the whole group an `Errors` value. -/
def parse_set : Nat → Lexer → PRes ASTNode
  | 0, _ => .nofuel
  | fuel+1, s =>
    match lex s with
    | (_, s1) =>
      match setLoop fuel s1 [] [] with
      | .done parameters errs s2 =>
        if errs.isEmpty then
          match peek s2 with
          | .LeftBrace _ => .res (.ok (.Parameters parameters)) s2
          | .Colon _ => .res (.ok (.Parameters parameters)) s2
          | _ => .res (.ok (.Arguments parameters)) s2
        else .res (.error (.Errors errs)) s2
      | .panicked => .panicked
      | .nofuel => .nofuel

/-- The collecting loop of `Parser::parse_scope` (statements between `{` and
`}`; only a `BraceDelimiter` ends the group, every other node — a `Separator`
included — is pushed). -/
def scopeLoop : Nat → Lexer → List ASTNode → List ASTError → LoopRes
  | 0, _, _, _ => .nofuel
  | fuel+1, s, statements, errors =>
    match peek s with
    | .RightBrace _ => .done statements errors (lex s).2
    | _ =>
      match parse_node fuel s with
      | .res (.ok statement) s1 =>
        match statement with
        | .BraceDelimiter => .done statements errors (lex s1).2
        | _ => scopeLoop fuel s1 (statements ++ [statement]) errors
      | .res (.error e) s1 => scopeLoop fuel s1 statements (errors ++ [e])
      | .panicked => .panicked
      | .nofuel => .nofuel

/-- `Parser::parse_scope`: consumes one token, runs the collecting loop, and
yields a `Block` (or an `Errors` aggregate). -/
def parse_scope : Nat → Lexer → PRes ASTNode
  | 0, _ => .nofuel
  | fuel+1, s =>
    match lex s with
    | (_, s1) =>
      match scopeLoop fuel s1 [] [] with
      | .done statements errs s2 =>
        if errs.isEmpty then .res (.ok (.Block statements)) s2
        else .res (.error (.Errors errs)) s2
      | .panicked => .panicked
      | .nofuel => .nofuel

/-- `Parser::parse_variable`: dispatch on the consumed assignment token;
compound assignments yield `[Type(None), Operator(op), rhs]`, `=` yields
`[Type(None), rhs]`, `:` yields `[Type(Some(t))]` optionally followed by the
initializer. -/
def parse_variable : Nat → Lexer → PRes (List ASTNode)
  | 0, _ => .nofuel
  | fuel+1, s =>
    match lex s with
    | (token, s1) =>
      match token with
      | .PlusEqual _ =>
        match parse_expression fuel s1 with
        | .res (.ok expression) s2 =>
          .res (.ok [.Typ none, .Operator ("+"), expression]) s2
        | .res (.error e) s2 => .res (.error e) s2
        | .panicked => .panicked
        | .nofuel => .nofuel
      | .MinusEqual _ =>
        match parse_expression fuel s1 with
        | .res (.ok expression) s2 =>
          .res (.ok [.Typ none, .Operator ("-"), expression]) s2
        | .res (.error e) s2 => .res (.error e) s2
        | .panicked => .panicked
        | .nofuel => .nofuel
      | .AsteriskEqual _ =>
        match parse_expression fuel s1 with
        | .res (.ok expression) s2 =>
          .res (.ok [.Typ none, .Operator ("*"), expression]) s2
        | .res (.error e) s2 => .res (.error e) s2
        | .panicked => .panicked
        | .nofuel => .nofuel
      | .SlashEqual _ =>
        match parse_expression fuel s1 with
        | .res (.ok expression) s2 =>
          .res (.ok [.Typ none, .Operator ("/"), expression]) s2
        | .res (.error e) s2 => .res (.error e) s2
        | .panicked => .panicked
        | .nofuel => .nofuel
      | .PercentEqual _ =>
        match parse_expression fuel s1 with
        | .res (.ok expression) s2 =>
          .res (.ok [.Typ none, .Operator ("%"), expression]) s2
        | .res (.error e) s2 => .res (.error e) s2
        | .panicked => .panicked
        | .nofuel => .nofuel
      | .CaretEqual _ =>
        match parse_expression fuel s1 with
        | .res (.ok expression) s2 =>
          .res (.ok [.Typ none, .Operator ("^"), expression]) s2
        | .res (.error e) s2 => .res (.error e) s2
        | .panicked => .panicked
        | .nofuel => .nofuel
      | .Equal _ =>
        match parse_expression fuel s1 with
        | .res (.ok expression) s2 => .res (.ok [.Typ none, expression]) s2
        | .res (.error e) s2 => .res (.error e) s2
        | .panicked => .panicked
        | .nofuel => .nofuel
      | .Colon _ =>
        match parse_type fuel s1 with
        | .res (.ok ty) s2 =>
          match peek s2 with
          | .Equal _ =>
            match parse_expression fuel (lex s2).2 with
            | .res (.ok e2) s3 => .res (.ok [.Typ (some ty), e2]) s3
            | .res (.error e) s3 => .res (.error e) s3
            | .panicked => .panicked
            | .nofuel => .nofuel
          | _ => .res (.ok [.Typ (some ty)]) s2
        | .res (.error e) s2 => .res (.error e) s2
        | .panicked => .panicked
        | .nofuel => .nofuel
      | _ => .res (.error (.UnknownToken token)) s1

/-- `Parser::parse_type`: parses one node. -/
def parse_type : Nat → Lexer → PRes ASTNode
  | 0, _ => .nofuel
  | fuel+1, s => parse_node fuel s

/-- The collecting loop of `Parser::parse_array` (elements between `[` and
`]`; a comma's `Separator` is skipped, a `BracketDelimiter` ends the group
and eats one further token). -/
def arrayLoop : Nat → Lexer → List ASTNode → List ASTError → LoopRes
  | 0, _, _, _ => .nofuel
  | fuel+1, s, element, errors =>
    match peek s with
    | .RightBracket _ => .done element errors (lex s).2
    | _ =>
      match parse_node fuel s with
      | .res (.ok parameter) s1 =>
        match parameter with
        | .BracketDelimiter => .done element errors (lex s1).2
        | .Separator => arrayLoop fuel s1 element errors
        | _ => arrayLoop fuel s1 (element ++ [parameter]) errors
      | .res (.error e) s1 => arrayLoop fuel s1 element (errors ++ [e])
      | .panicked => .panicked
      | .nofuel => .nofuel

/-- `Parser::parse_array`: consumes one token, runs the collecting loop, and
yields an `Array` (or an `Errors` aggregate). -/
def parse_array : Nat → Lexer → PRes ASTNode
  | 0, _ => .nofuel
  | fuel+1, s =>
    match lex s with
    | (_, s1) =>
      match arrayLoop fuel s1 [] [] with
      | .done element errs s2 =>
        if errs.isEmpty then .res (.ok (.Array element)) s2
        else .res (.error (.Errors errs)) s2
      | .panicked => .panicked
      | .nofuel => .nofuel

/-- `Parser::parse_expression`: left operand, then the left-associative
binary fold. -/
def parse_expression : Nat → Lexer → PRes ASTNode
  | 0, _ => .nofuel
  | fuel+1, s =>
    match parse_term fuel s with
    | .res (.ok left) s1 => exprLoop fuel left s1
    | .res (.error e) s1 => .res (.error e) s1
    | .panicked => .panicked
    | .nofuel => .nofuel

/-- The `while let Some(op) = match_binary_operator` fold of
`parse_expression`. -/
def exprLoop : Nat → ASTNode → Lexer → PRes ASTNode
  | 0, _, _ => .nofuel
  | fuel+1, left, s =>
    match match_binary_operator s with
    | .noOp => .res (.ok left) s
    | .panicked => .panicked
    | .op opStr s1 =>
      match parse_term fuel s1 with
      | .res (.ok right) s2 =>
        exprLoop fuel (.BinaryExpression left (.Operator opStr) right) s2
      | .res (.error e) s2 => .res (.error e) s2
      | .panicked => .panicked
      | .nofuel => .nofuel

/-- `Parser::parse_term`: same shape as `parse_expression`, over
`parse_factor`. -/
def parse_term : Nat → Lexer → PRes ASTNode
  | 0, _ => .nofuel
  | fuel+1, s =>
    match parse_factor fuel s with
    | .res (.ok left) s1 => termLoop fuel left s1
    | .res (.error e) s1 => .res (.error e) s1
    | .panicked => .panicked
    | .nofuel => .nofuel

/-- The `while let Some(op) = match_binary_operator` fold of `parse_term`. -/
def termLoop : Nat → ASTNode → Lexer → PRes ASTNode
  | 0, _, _ => .nofuel
  | fuel+1, left, s =>
    match match_binary_operator s with
    | .noOp => .res (.ok left) s
    | .panicked => .panicked
    | .op opStr s1 =>
      match parse_factor fuel s1 with
      | .res (.ok right) s2 =>
        termLoop fuel (.BinaryExpression left (.Operator opStr) right) s2
      | .res (.error e) s2 => .res (.error e) s2
      | .panicked => .panicked
      | .nofuel => .nofuel

/-- `Parser::parse_factor`: unary prefix or fall-through to `parse_node`. -/
def parse_factor : Nat → Lexer → PRes ASTNode
  | 0, _ => .nofuel
  | fuel+1, s =>
    match match_unary_operator s with
    | .op opStr s1 =>
      match parse_factor fuel s1 with
      | .res (.ok expression) s2 =>
        .res (.ok (.UnaryExpression (.Operator opStr) expression)) s2
      | .res (.error e) s2 => .res (.error e) s2
      | .panicked => .panicked
      | .nofuel => .nofuel
    | .panicked => .panicked
    | .noOp => parse_node fuel s

end

/-- The top-level loop of `Parser::parse`: skim `Unknown` tokens into the
error list, stop at `Eof`, otherwise parse one node and push it (or its
error). -/
def topLoop : Nat → Lexer → List ASTNode → List ASTError → LoopRes
  | 0, _, _, _ => .nofuel
  | fuel+1, s, program, errors =>
    match peek s with
    | .Unknown _ _ =>
      match lex s with
      | (t, s1) => topLoop fuel s1 program (errors ++ [.UnknownToken t])
    | .Eof _ => .done program errors s
    | _ =>
      match parse_node fuel s with
      | .res (.ok node) s1 => topLoop fuel s1 (program ++ [node]) errors
      | .res (.error e) s1 => topLoop fuel s1 program (errors ++ [e])
      | .panicked => .panicked
      | .nofuel => .nofuel

/-- Observable outcome of `Parser::parse` on a whole source string. -/
inductive ParseOutcome where
  | ok : List ASTNode → ParseOutcome
  | err : List ASTError → ParseOutcome
  | panicked : ParseOutcome
  | nofuel : ParseOutcome
deriving Repr

/-- `Parser::parse` over a fresh parser for `src`: runs the top-level loop
and returns `Ok(program)` when no error was accumulated, `Err(errors)`
otherwise. -/
def parse (fuel : Nat) (src : String) : ParseOutcome :=
  match topLoop fuel (lexerInit src) [] [] with
  | .done program errors _ =>
    if errors.isEmpty then .ok program else .err errors
  | .panicked => .panicked
  | .nofuel => .nofuel

/-- The follow-token test of `parse_set`'s classification: `{` or `:` after
the closing parenthesis means function context (`Parameters`), anything else
call context (`Arguments`). -/
def isFnFollow : Token → Bool
  | .LeftBrace _ => true
  | .Colon _ => true
  | _ => false

/-!
Theorems.  Helper lemmas come first, then one theorem per claim (with, where
required, a counterexample theorem and a witness theorem).
-/

/-- At end of input the `parse_set` loop spins without consuming: `parse_node`
keeps returning `UnexpectedToken(Eof)` on an unchanged lexer state, so every
amount of fuel is exhausted. -/
theorem setLoop_empty (fuel : Nat) :
    ∀ (p : Position) (acc : List ASTNode) (errs : List ASTError),
      setLoop fuel { source := [], pos := p } acc errs = .nofuel := by
  induction fuel with
  | zero => intro p acc errs; rfl
  | succ k ih =>
    intro p acc errs
    cases k with
    | zero => rfl
    | succ j =>
      have hstep :
          setLoop (j + 2) { source := [], pos := p } acc errs =
            setLoop (j + 1) { source := [], pos := p } acc
              (errs ++ [ASTError.UnexpectedToken (Token.Eof p)]) := rfl
      rw [hstep]
      exact ih p acc (errs ++ [ASTError.UnexpectedToken (Token.Eof p)])

/-- C2: the claim says `Parser::parse` terminates on every finite input, in
particular on an unclosed parenthesis.  The code does not: on input `(` the
`parse_set` loop never advances at `Eof`, so the fueled embedding runs out of
fuel for every fuel value — the Rust loop runs forever. -/
theorem c2_unclosed_paren_diverges : ∀ fuel : Nat, parse fuel ("(") = .nofuel := by
  intro fuel
  rcases fuel with _ | _ | _ | n
  · rfl
  · rfl
  · rfl
  · have h1 : peek (lexerInit ("(")) = Token.LeftParenthesis { col := 1, row := 1 } := rfl
    have h2 : lex (lexerInit ("(")) =
        (Token.LeftParenthesis { col := 1, row := 1 },
          { source := [], pos := { col := 2, row := 1 } }) := rfl
    have h3 : lex ({ source := [], pos := { col := 2, row := 1 } } : Lexer) =
        (Token.Eof { col := 2, row := 1 },
          { source := [], pos := { col := 2, row := 1 } }) := rfl
    have hs := setLoop_empty n { col := 2, row := 1 } [] []
    simp only [parse, topLoop, h1, h2, parse_node, parse_set, h3, hs]

/-- C9: `Lexer::peek` returns exactly the token the next `lex` would return;
it operates on a disposable duplicate of the cursor state, and that duplicate
equals the original state, so peeking has no observable effect on the primary
cursor and is a pure function of the current position. -/
theorem c9_peek_pure : ∀ l : Lexer, clone l = l ∧ peek l = (lex l).1 :=
  fun _ => ⟨rfl, rfl⟩

/-- C3: the claim says neither the lexer nor the parser can abort.  The lexer
half is right (unrecognized input surfaces as `Unknown`, second conjunct),
but `Parser::parse` can panic: on `if x { y }` the `If` branch calls
`self.parse_node().unwrap()` while the next token is `Eof`, `parse_node`
returns `Err(UnexpectedToken(Eof))`, and the `unwrap` aborts. -/
theorem c3_parse_panics :
    parse 64 ("if x \x7b y \x7d") = .panicked ∧
    tokensF 5 (lexerInit ("~")) = [Token.Unknown { col := 1, row := 1 } ("~")] :=
  ⟨rfl, rfl⟩

/-- C5: the claim says `if x { y } else { z }` parses to an `If` node.  The
code panics on exactly that input: the `else` keyword is only peeked, never
consumed, so the recursive `self.parse_node().unwrap()` consumes `else` as a
statement head, gets `Err(UnexpectedToken(Keyword("else")))`, and unwraps it. -/
theorem c5_if_else_panics :
    parse 64 ("if x \x7b y \x7d else \x7b z \x7d") = .panicked := rfl

/-- C1 counterexample: the top-level loop of `Parser::parse` pushes whatever
`parse_node` returns without stripping sentinels, so the input `)` parses
successfully to a tree whose root is the sentinel `ParenDelimiter`. -/
theorem c1_sentinel_leak_cex :
    parse 8 (")") = .ok [ASTNode.ParenDelimiter] ∧
    isSentinel ASTNode.ParenDelimiter = true :=
  ⟨rfl, rfl⟩

/-- C6 counterexample: `x: num` parses to a `VariableDeclaration` whose
second field is the wrapped annotation `Type(Some(NumberType))`, not the bare
`NumberType` the claim states. -/
theorem c6_declaration_cex :
    parse 30 ("x: num") =
      .ok [ASTNode.VariableDeclaration (.Identifier ("x")) (.Typ (some .NumberType))] ∧
    ASTNode.Typ (some .NumberType) ≠ ASTNode.NumberType :=
  ⟨rfl, fun h => ASTNode.noConfusion h⟩

/-- C6 as amended: `x: num = 1` parses to
`VariableDefinition(Identifier("x"), Type(Some(NumberType)), NumberLiteral("1"))`,
and `x: num` alone parses to a `VariableDeclaration` whose second field is the
wrapped annotation node `Type(Some(NumberType))`. -/
theorem c6_variable_forms :
    parse 30 ("x: num = 1") =
      .ok [ASTNode.VariableDefinition (.Identifier ("x")) (.Typ (some .NumberType))
        (.NumberLiteral ("1"))] ∧
    parse 30 ("x: num") =
      .ok [ASTNode.VariableDeclaration (.Identifier ("x")) (.Typ (some .NumberType))] :=
  ⟨rfl, rfl⟩

/-- C8 counterexample: `collect_number` munches numeric characters only, so
`12abc` lexes as a `Number("12")` followed by an `Identifier("abc")`, not as
the single `Number` token over the whole alphanumeric run that the claim
states. -/
theorem c8_number_munch_cex :
    tokensF 10 (lexerInit ("12abc")) =
      [Token.Number { col := 1, row := 1 } ("12"),
        Token.Identifier { col := 3, row := 1 } ("abc")] ∧
    Token.Number { col := 1, row := 1 } ("12") ≠
      Token.Number { col := 1, row := 1 } ("12abc") :=
  ⟨rfl, by decide⟩

/-- The `parse_set` loop never pushes its own stop shapes: an element list
that starts free of `ParenDelimiter`/`Separator` stays free of them (those
two shapes are intercepted by the loop's `match`, which breaks or skips). -/
theorem setLoop_strips (fuel : Nat) :
    ∀ (s : Lexer) (acc : List ASTNode) (errs : List ASTError) (out : List ASTNode)
      (oerrs : List ASTError) (s2 : Lexer),
      setLoop fuel s acc errs = .done out oerrs s2 →
      acc.all (fun n => !(isSetStop n)) = true →
      out.all (fun n => !(isSetStop n)) = true := by
  induction fuel with
  | zero =>
    intro s acc errs out oerrs s2 h hacc
    simp [setLoop] at h
  | succ k ih =>
    intro s acc errs out oerrs s2 h hacc
    simp only [setLoop] at h
    split at h
    · cases h
      exact hacc
    · split at h
      · split at h
        · cases h
          exact hacc
        · exact ih _ _ _ _ _ _ h hacc
        · refine ih _ _ _ _ _ _ h ?_
          rename_i e s1 heq junk hnp hns
          have hp : isSetStop e = false := by
            cases e <;> first
              | rfl
              | exact absurd rfl hnp
              | exact absurd rfl hns
          simp [List.all_append, hacc, hp]
      · exact ih _ _ _ _ _ _ h hacc
      · exact LoopRes.noConfusion h
      · exact LoopRes.noConfusion h

/-- The `parse_scope` loop never pushes a `BraceDelimiter` (but pushes
everything else, a `Separator` included). -/
theorem scopeLoop_strips (fuel : Nat) :
    ∀ (s : Lexer) (acc : List ASTNode) (errs : List ASTError) (out : List ASTNode)
      (oerrs : List ASTError) (s2 : Lexer),
      scopeLoop fuel s acc errs = .done out oerrs s2 →
      acc.all (fun n => !(isScopeStop n)) = true →
      out.all (fun n => !(isScopeStop n)) = true := by
  induction fuel with
  | zero =>
    intro s acc errs out oerrs s2 h hacc
    simp [scopeLoop] at h
  | succ k ih =>
    intro s acc errs out oerrs s2 h hacc
    simp only [scopeLoop] at h
    split at h
    · cases h
      exact hacc
    · split at h
      · split at h
        · cases h
          exact hacc
        · refine ih _ _ _ _ _ _ h ?_
          rename_i e s1 heq junk hnb
          have hp : isScopeStop e = false := by
            cases e <;> first
              | rfl
              | exact absurd rfl hnb
          simp [List.all_append, hacc, hp]
      · exact ih _ _ _ _ _ _ h hacc
      · exact LoopRes.noConfusion h
      · exact LoopRes.noConfusion h

/-- The `parse_array` loop never pushes its own stop shapes
(`BracketDelimiter`/`Separator`). -/
theorem arrayLoop_strips (fuel : Nat) :
    ∀ (s : Lexer) (acc : List ASTNode) (errs : List ASTError) (out : List ASTNode)
      (oerrs : List ASTError) (s2 : Lexer),
      arrayLoop fuel s acc errs = .done out oerrs s2 →
      acc.all (fun n => !(isArrayStop n)) = true →
      out.all (fun n => !(isArrayStop n)) = true := by
  induction fuel with
  | zero =>
    intro s acc errs out oerrs s2 h hacc
    simp [arrayLoop] at h
  | succ k ih =>
    intro s acc errs out oerrs s2 h hacc
    simp only [arrayLoop] at h
    split at h
    · cases h
      exact hacc
    · split at h
      · split at h
        · cases h
          exact hacc
        · exact ih _ _ _ _ _ _ h hacc
        · refine ih _ _ _ _ _ _ h ?_
          rename_i e s1 heq junk hnp hns
          have hp : isArrayStop e = false := by
            cases e <;> first
              | rfl
              | exact absurd rfl hnp
              | exact absurd rfl hns
          simp [List.all_append, hacc, hp]
      · exact ih _ _ _ _ _ _ h hacc
      · exact LoopRes.noConfusion h
      · exact LoopRes.noConfusion h

/-- C1 as amended: the claim (no sentinel ever appears in an `Ok` tree, every
production including the top-level loop strips them) is false — see the
counterexample — but each grouping loop does strip its own stop shapes:
lists collected by `parse_set` never directly contain
`ParenDelimiter`/`Separator`, by `parse_scope` never `BraceDelimiter`, and by
`parse_array` never `BracketDelimiter`/`Separator`.  Sentinels of other kinds,
and the top-level loop, can still leak them. -/
theorem c1_group_loops_strip_sentinels :
    (∀ fuel (s : Lexer) acc errs out oerrs s2,
        setLoop fuel s acc errs = LoopRes.done out oerrs s2 →
        acc.all (fun n => !(isSetStop n)) = true →
        out.all (fun n => !(isSetStop n)) = true) ∧
    (∀ fuel (s : Lexer) acc errs out oerrs s2,
        scopeLoop fuel s acc errs = LoopRes.done out oerrs s2 →
        acc.all (fun n => !(isScopeStop n)) = true →
        out.all (fun n => !(isScopeStop n)) = true) ∧
    (∀ fuel (s : Lexer) acc errs out oerrs s2,
        arrayLoop fuel s acc errs = LoopRes.done out oerrs s2 →
        acc.all (fun n => !(isArrayStop n)) = true →
        out.all (fun n => !(isArrayStop n)) = true) :=
  ⟨setLoop_strips, scopeLoop_strips, arrayLoop_strips⟩

/-- Witness for C1's amended theorem: a concrete `setLoop` run on `)` keeps
an already-collected element list free of the stop shapes. -/
theorem c1_strip_witness :
    List.all [ASTNode.Identifier ("a")] (fun n => !(isSetStop n)) = true :=
  c1_group_loops_strip_sentinels.1 3
    { source := [')'], pos := { col := 1, row := 1 } }
    [ASTNode.Identifier ("a")] [] [ASTNode.Identifier ("a")] []
    { source := [], pos := { col := 2, row := 1 } } rfl rfl

/-- The top-level `parse` wrapper returns `Ok` when the loop accumulated no
errors and `Err` with exactly the accumulated non-empty error list otherwise. -/
theorem topLoop_parse (fuel : Nat) (src : String) (prog : List ASTNode)
    (errs : List ASTError) (s1 : Lexer)
    (h : topLoop fuel (lexerInit src) [] [] = .done prog errs s1) :
    (errs = [] → parse fuel src = .ok prog) ∧
    (errs ≠ [] → parse fuel src = .err errs) := by
  constructor
  · intro he
    subst he
    simp [parse, h]
  · intro he
    cases errs with
    | nil => exact absurd rfl he
    | cons e es => simp [parse, h]

/-- C4: `Parser::parse` returns `Err` exactly when the top-level loop
accumulated at least one statement-level error, and `Ok` with the collected
nodes otherwise; when `Err` is returned it carries only the errors (the
parsed nodes are discarded, as the concrete `x ?` run shows), and one
malformed statement does not stop later statements from being attempted
(the `? ?` run reports both faults). -/
theorem c4_error_accumulation :
    (∀ fuel src prog errs s1,
        topLoop fuel (lexerInit src) [] [] = LoopRes.done prog errs s1 →
        (errs = [] → parse fuel src = .ok prog) ∧
        (errs ≠ [] → parse fuel src = .err errs)) ∧
    parse 30 ("x ?") =
      .err [ASTError.UnexpectedToken (Token.QuestionMark { col := 3, row := 1 })] ∧
    parse 30 ("? ?") =
      .err [ASTError.UnexpectedToken (Token.QuestionMark { col := 1, row := 1 }),
        ASTError.UnexpectedToken (Token.QuestionMark { col := 3, row := 1 })] :=
  ⟨fun fuel src prog errs s1 h => topLoop_parse fuel src prog errs s1 h, rfl, rfl⟩

/-- Witness for C4: the general part applied to the concrete `x ?` run — the
successfully parsed `Identifier("x")` is discarded and only the error list is
returned. -/
theorem c4_witness :
    parse 21 ("x ?") =
      .err [ASTError.UnexpectedToken (Token.QuestionMark { col := 3, row := 1 })] :=
  (c4_error_accumulation.1 21 ("x ?") [ASTNode.Identifier ("x")]
    [ASTError.UnexpectedToken (Token.QuestionMark { col := 3, row := 1 })]
    { source := [], pos := { col := 4, row := 1 } } rfl).2 (by simp)

/-- `parse_set` classifies its collected group by the token following the
closing parenthesis: `Parameters` when `{` or `:` follows, `Arguments`
otherwise. -/
theorem parse_set_classify (fuel : Nat) (s : Lexer) (ps : List ASTNode) (s2 : Lexer)
    (h : setLoop fuel (lex s).2 [] [] = .done ps [] s2) :
    parse_set (fuel + 1) s =
      .res (.ok (if isFnFollow (peek s2) then ASTNode.Parameters ps
        else ASTNode.Arguments ps)) s2 := by
  rcases hlex : lex s with ⟨t1, s1⟩
  rw [hlex] at h
  simp only [parse_set, hlex, h, List.isEmpty_nil]
  cases hpk : peek s2 <;> simp [isFnFollow]

/-- C7: a parenthesized group is classified by the token after its closing
parenthesis (general part: `parse_set` yields `Parameters` exactly when `{`
or `:` follows, `Arguments` otherwise), so `foo()` parses to a
`FunctionCall` with empty `Arguments` and `foo() { }` to a
`FunctionDefinition` with empty `Parameters`, `Return(None)` and an empty
`Block`. -/
theorem c7_grouping_disambiguation :
    (∀ fuel (s : Lexer) ps s2,
        setLoop fuel (lex s).2 [] [] = LoopRes.done ps [] s2 →
        parse_set (fuel + 1) s =
          .res (.ok (if isFnFollow (peek s2) then ASTNode.Parameters ps
            else ASTNode.Arguments ps)) s2) ∧
    parse 64 ("foo()") =
      .ok [ASTNode.FunctionCall (.Identifier ("foo")) (.Arguments [])] ∧
    parse 64 ("foo() \x7b \x7d") =
      .ok [ASTNode.FunctionDefinition (.Identifier ("foo")) (.Parameters [])
        (.Return none) (.Block [])] :=
  ⟨fun fuel s ps s2 h => parse_set_classify fuel s ps s2 h, rfl, rfl⟩

/-- Witness for C7: the classification applied to a concrete `()` group
(nothing follows, so the group is `Arguments`). -/
theorem c7_witness :
    parse_set 6 (lexerInit ("()")) =
      PRes.res (.ok (if isFnFollow (peek { source := [], pos := { col := 3, row := 1 } })
        then ASTNode.Parameters [] else ASTNode.Arguments []))
      { source := [], pos := { col := 3, row := 1 } } :=
  c7_grouping_disambiguation.1 5 (lexerInit ("()")) []
    { source := [], pos := { col := 3, row := 1 } } rfl

/-- A digit is not whitespace (in the ASCII character classes of the model). -/
theorem isNumeric_not_ws {c : Char} (h : isNumericChar c = true) :
    isWhitespaceChar c = false := by
  simp [isNumericChar] at h
  simp [isWhitespaceChar]
  omega

/-- A digit is not alphabetic. -/
theorem isNumeric_not_alpha {c : Char} (h : isNumericChar c = true) :
    isAlphabeticChar c = false := by
  simp [isNumericChar] at h
  simp [isAlphabeticChar]
  omega

/-- A digit is not the double quote. -/
theorem isNumeric_not_quote {c : Char} (h : isNumericChar c = true) : ¬ c = '"' := by
  intro he
  subst he
  exact absurd h (by decide)

/-- A digit is not the newline character. -/
theorem isNumeric_not_newline {c : Char} (h : isNumericChar c = true) : ¬ c = '\n' := by
  intro he
  subst he
  exact absurd h (by decide)

/-- `collect` over a newline-free character class is `takeWhile`/`dropWhile`
with the column advanced by the number of collected characters. -/
theorem collectAux_no_newline (cond : Char → Bool)
    (hnl : ∀ c, cond c = true → ¬ c = '\n') :
    ∀ (src : List Char) (pos : Position),
      collectAux cond src pos =
        (src.takeWhile cond,
          { source := src.dropWhile cond,
            pos := { col := pos.col + (src.takeWhile cond).length, row := pos.row } }) := by
  intro src
  induction src with
  | nil => intro pos; simp [collectAux]
  | cons c rest ih =>
    intro pos
    by_cases hc : cond c = true
    · have hadv : (advance1 { source := c :: rest, pos := pos }).pos =
          { col := pos.col + 1, row := pos.row } := by
        simp [advance1, nextChar, hnl c hc]
      simp only [collectAux, hc, if_true, hadv, ih, List.takeWhile_cons, List.dropWhile_cons]
      simp [hc, Position.mk.injEq]
      omega
    · have hc2 : cond c = false := by
        cases hcc : cond c
        · rfl
        · exact absurd hcc hc
      simp [collectAux, hc2, List.takeWhile_cons, List.dropWhile_cons]

/-- C8 as amended: on input whose next character is a digit the lexer
maximal-munches over NUMERIC characters only (not the claim's alphanumerics)
and emits one `Number` token holding exactly that digit run, positioned at
the current cursor position; consequently `12abc` lexes as `Number("12")`
followed by `Identifier("abc")` (see the counterexample theorem). -/
theorem c8_number_munch_amended :
    ∀ (l : Lexer) (c : Char) (rest : List Char),
      l.source = c :: rest → isNumericChar c = true →
      (lex l).1 = Token.Number l.pos (String.mk (l.source.takeWhile isNumericChar)) := by
  intro l c rest hs hn
  have hcol : ∀ src pos, collectAux isNumericChar src pos =
      (src.takeWhile isNumericChar,
        { source := src.dropWhile isNumericChar,
          pos := { col := pos.col + (src.takeWhile isNumericChar).length, row := pos.row } }) :=
    collectAux_no_newline isNumericChar (fun c2 hc => isNumeric_not_newline hc)
  simp only [lex, lexF, hs, isNumeric_not_ws hn, isNumeric_not_alpha hn,
    isNumeric_not_quote hn, hn, collect_number, collect, hcol]
  simp [hs, Nat.add_sub_cancel]

/-- Witness for C8's amended theorem: lexing `12a` emits
`Number` over the digit prefix `12`. -/
theorem c8_witness :
    (lex { source := ['1', '2', 'a'], pos := { col := 1, row := 1 } }).1 =
      Token.Number { col := 1, row := 1 }
        (String.mk (List.takeWhile isNumericChar ['1', '2', 'a'])) :=
  c8_number_munch_amended { source := ['1', '2', 'a'], pos := { col := 1, row := 1 } }
    '1' ['2', 'a'] rfl (by decide)

/-- When the next token is a comma, one iteration of the `parse_set` loop
consumes it (as the `Separator` sentinel) and continues with unchanged
accumulators. -/
theorem setLoop_comma_skip (fuel : Nat) (s : Lexer) (p : Position)
    (acc : List ASTNode) (errs : List ASTError) (hp : peek s = Token.Comma p) :
    setLoop (fuel + 1) s acc errs = setLoop fuel (lex s).2 acc errs := by
  rcases hlex : lex s with ⟨t1, s1⟩
  have ht : t1 = Token.Comma p := by
    have hl1 : (lex s).1 = Token.Comma p := hp
    rw [hlex] at hl1
    exact hl1
  subst ht
  cases fuel with
  | zero => simp only [setLoop, hp, parse_node]
  | succ k =>
    have hpn : parse_node (k + 1) s = .res (.ok ASTNode.Separator) s1 := by
      simp only [parse_node, hlex]
    simp only [setLoop, hp, hpn]

/-- When the next token is a comma, one iteration of the `parse_array` loop
consumes it and continues with unchanged accumulators. -/
theorem arrayLoop_comma_skip (fuel : Nat) (s : Lexer) (p : Position)
    (acc : List ASTNode) (errs : List ASTError) (hp : peek s = Token.Comma p) :
    arrayLoop (fuel + 1) s acc errs = arrayLoop fuel (lex s).2 acc errs := by
  rcases hlex : lex s with ⟨t1, s1⟩
  have ht : t1 = Token.Comma p := by
    have hl1 : (lex s).1 = Token.Comma p := hp
    rw [hlex] at hl1
    exact hl1
  subst ht
  cases fuel with
  | zero => simp only [arrayLoop, hp, parse_node]
  | succ k =>
    have hpn : parse_node (k + 1) s = .res (.ok ASTNode.Separator) s1 := by
      simp only [parse_node, hlex]
    simp only [arrayLoop, hp, hpn]

/-- C10: inside parenthesized and bracketed groups a comma is a pure skipped
separator: a loop iteration seeing a comma consumes it and changes neither
the collected elements nor the errors (general parts), and concretely
`f(a, , b)` parses to the same tree as `f(a, b)`, and `[1, , 2]` to the same
`Array` node as `[1, 2]`, with no error in either case. -/
theorem c10_comma_separator :
    (∀ fuel (s : Lexer) p acc errs, peek s = Token.Comma p →
        setLoop (fuel + 1) s acc errs = setLoop fuel (lex s).2 acc errs) ∧
    (∀ fuel (s : Lexer) p acc errs, peek s = Token.Comma p →
        arrayLoop (fuel + 1) s acc errs = arrayLoop fuel (lex s).2 acc errs) ∧
    parse 64 ("f(a, , b)") = parse 64 ("f(a, b)") ∧
    parse 64 ("f(a, b)") =
      .ok [ASTNode.FunctionCall (.Identifier ("f"))
        (.Arguments [.Identifier ("a"), .Identifier ("b")])] ∧
    parse 64 ("[1, , 2]") = parse 64 ("[1, 2]") ∧
    parse 64 ("[1, 2]") = .ok [ASTNode.Array [.NumberLiteral ("2")]] :=
  ⟨fun fuel s p acc errs hp => setLoop_comma_skip fuel s p acc errs hp,
   fun fuel s p acc errs hp => arrayLoop_comma_skip fuel s p acc errs hp,
   rfl, rfl, rfl, rfl⟩

/-- Witness for C10: the comma-skip applied to a concrete one-comma state. -/
theorem c10_witness :
    setLoop 2 { source := [','], pos := { col := 1, row := 1 } } [] [] =
      setLoop 1 (lex { source := [','], pos := { col := 1, row := 1 } }).2 [] [] :=
  c10_comma_separator.1 1 { source := [','], pos := { col := 1, row := 1 } }
    { col := 1, row := 1 } [] [] rfl

end Hydrogen
